import Mathlib

set_option maxRecDepth 2048

/-!
Shallow embedding of the ascii-terminal-chat repository core:
the frame codec of src/ascii.rs and the per-connection message handling
loop of src/server.rs over the wire message type of src/protocol.rs.

Conventions of the embedding:
- Machine integers are Nat.  Rust u16 arithmetic wraps modulo 65536
  (release-profile semantics); every place the source multiplies u16
  values the wrap is written explicitly as % 65536.  Byte values are
  Nat below 256; the Rust cast ch as u8 is written % 256.
- Fallible Rust functions returning anyhow::Result are embedded as
  Except String.
- The f32 luminance computation 0.299 r + 0.587 g + 0.114 b truncated
  to u8 is modelled as exact integer arithmetic
  (299 r + 587 g + 114 b) / 1000; none of the theorems below depend on
  the sub-ulp rounding of f32, only on the blank-fill and indexing
  structure around the luminance value.
-/

namespace AsciiChat

/-- Byte values of the fixed 69-glyph ramp PALETTE from src/ascii.rs line 3. -/
def PALETTE : List Nat := [32, 46, 39, 96, 94, 34, 44, 58, 59, 73, 108, 33, 105, 62, 60, 126, 43, 95, 45, 63, 93, 91, 125, 123, 49, 41, 40, 124, 92, 116, 102, 106, 114, 120, 110, 117, 118, 99, 122, 88, 89, 85, 74, 67, 76, 81, 48, 79, 90, 109, 119, 113, 112, 100, 98, 107, 104, 97, 111, 42, 35, 77, 87, 38, 56, 37, 66, 64, 36]

/-- Embeds fn luminance of src/ascii.rs lines 105-107; the f32 weights
0.299, 0.587, 0.114 are modelled exactly over the integers with the final
truncation to u8. -/
def luminance (r g b : Nat) : Nat := (299 * r + 587 * g + 114 * b) / 1000

/-- The ramp index idx = (lum * (PALETTE.len() - 1)) / 255 computed inside
fn ascii_for_rgb, src/ascii.rs line 111. -/
def ramp_index (lum : Nat) : Nat := lum * (PALETTE.length - 1) / 255

/-- Embeds fn ascii_for_rgb of src/ascii.rs lines 109-113: glyph byte chosen
from the ramp by luminance. -/
def ascii_for_rgb (r g b : Nat) : Nat := PALETTE.getD (ramp_index (luminance r g b)) 0

/-- Embeds struct AsciiFrame of src/ascii.rs: width and height are u16, each
cell is (glyph, r, g, b); the glyph is stored as its code point. -/
structure AsciiFrame where
  width : Nat
  height : Nat
  cells : List (Nat × Nat × Nat × Nat)
deriving DecidableEq

/-- One loop body iteration of AsciiFrame::from_rgb_data, src/ascii.rs
lines 25-42: the flat pixel index i = (y * width + x) * 3 is computed in
u16 arithmetic, hence the % 65536; a cell whose three source bytes are not
all inside data is blank (space, black). -/
def cellFor (data : List Nat) (width : Nat) (mono : Bool) (y x : Nat) : Nat × Nat × Nat × Nat :=
  let i := (y * width + x) * 3 % 65536
  if data.length ≤ i + 2 then (32, 0, 0, 0)
  else
    let r := data.getD i 0
    let g := data.getD (i + 1) 0
    let b := data.getD (i + 2) 0
    if mono then (ascii_for_rgb r g b, luminance r g b, luminance r g b, luminance r g b)
    else (ascii_for_rgb r g b, r, g, b)

/-- The cell list built by the nested for y, for x loops of
AsciiFrame::from_rgb_data, src/ascii.rs lines 25-43, in row-major order. -/
def gridCells (data : List Nat) (width : Nat) (mono : Bool) (height : Nat) : List (Nat × Nat × Nat × Nat) :=
  (List.range height).flatMap (fun y => (List.range width).map (fun x => cellFor data width mono y x))

/-- The frame value returned by AsciiFrame::from_rgb_data. -/
def frameOfRgb (data : List Nat) (width height : Nat) (mono : Bool) : AsciiFrame :=
  { width := width, height := height, cells := gridCells data width mono height }

/-- Embeds AsciiFrame::from_rgb_data, src/ascii.rs lines 22-46; the Rust
function returns Result but its body never errors. -/
def from_rgb_data (data : List Nat) (width height : Nat) (mono : Bool) : Except String AsciiFrame :=
  Except.ok (frameOfRgb data width height mono)

/-- Little-endian bytes of a u16, as produced by u16::to_le_bytes in
AsciiFrame::serialize. -/
def u16_to_le (v : Nat) : List Nat := [v % 256, v / 256 % 256]

/-- The four bytes one cell contributes in AsciiFrame::serialize,
src/ascii.rs lines 67-72; ch as u8 truncates the code point to a byte. -/
def cellBytes (c : Nat × Nat × Nat × Nat) : List Nat := [c.1 % 256, c.2.1, c.2.2.1, c.2.2.2]

/-- Embeds AsciiFrame::serialize, src/ascii.rs lines 62-74. -/
def serialize (f : AsciiFrame) : List Nat :=
  u16_to_le f.width ++ u16_to_le f.height ++ f.cells.flatMap cellBytes

/-- Reads a u16 from two little-endian bytes, as u16::from_le_bytes in
AsciiFrame::deserialize. -/
def u16_from_le (b0 b1 : Nat) : Nat := b0 + 256 * b1

/-- The while loop of AsciiFrame::deserialize, src/ascii.rs lines 92-99:
consumes four bytes per cell.  Under the length guard of deserialize the
input length is always a multiple of four, so the fall-through case for a
trailing fragment shorter than four bytes is never reached there. -/
def parseCells : List Nat → List (Nat × Nat × Nat × Nat)
  | g :: r :: b1 :: b2 :: rest => (g, r, b1, b2) :: parseCells rest
  | _ => []

/-- Embeds AsciiFrame::deserialize, src/ascii.rs lines 76-102.  The
expression (width * height * 4) as usize is evaluated in u16 arithmetic in
the source, so the expected length wraps modulo 65536. -/
def deserialize (data : List Nat) : Except String AsciiFrame :=
  if data.length < 4 then Except.error "Invalid frame data"
  else
    let width := u16_from_le (data.getD 0 0) (data.getD 1 0)
    let height := u16_from_le (data.getD 2 0) (data.getD 3 0)
    let expected_len := 4 + width * height * 4 % 65536
    if data.length ≠ expected_len then Except.error "Invalid frame data length"
    else Except.ok { width := width, height := height, cells := parseCells (data.drop 4) }

/-- A well-formed frame: u16-ranged dimensions, the cell-count invariant of
the spec, and every cell a ramp glyph with byte-ranged color channels. -/
def WellFormed (f : AsciiFrame) : Prop :=
  f.width < 65536 ∧ f.height < 65536 ∧
  f.cells.length = f.width * f.height ∧
  ∀ c ∈ f.cells, c.1 ∈ PALETTE ∧ c.2.1 < 256 ∧ c.2.2.1 < 256 ∧ c.2.2.2 < 256

/-- Embeds struct UserInfo of src/protocol.rs lines 37-42; the Uuid id is an
opaque token, modelled as Nat. -/
structure UserInfo where
  id : Nat
  username : String
  joined_at : Nat
deriving DecidableEq

/-- Embeds enum Message of src/protocol.rs lines 4-35. -/
inductive Message where
  | Join (id : Nat) (username : String)
  | Leave (id : Nat)
  | Chat (id : Nat) (username : String) (text : String) (timestamp : Nat)
  | VideoFrame (id : Nat) (username : String) (frame : List Nat)
  | UserList (users : List UserInfo)
  | ServerInfo (ngrok_url : Option String) (room_name : String)
  | Error (message : String)
deriving DecidableEq

/-- HashMap::insert on the roster map keyed by connection id: replaces the
value when the key is present, otherwise adds the entry. -/
def insertUser : List (Nat × UserInfo) → Nat → UserInfo → List (Nat × UserInfo)
  | [], k, v => [(k, v)]
  | (k2, v2) :: rest, k, v =>
    if k2 = k then (k, v) :: rest else (k2, v2) :: insertUser rest k v

/-- HashMap lookup on the roster map. -/
def lookupUser : List (Nat × UserInfo) → Nat → Option UserInfo
  | [], _ => none
  | (k2, v2) :: rest, k => if k2 = k then some v2 else lookupUser rest k

/-- The values() collection of the roster map used to build UserList in
src/server.rs lines 119-123. -/
def userValues (l : List (Nat × UserInfo)) : List UserInfo := l.map Prod.snd

/-- State visible to one receive loop of handle_socket, src/server.rs: the
shared roster map, the cached local username variable of line 79, and the
list of events published to the broadcast channel so far. -/
structure SessionState where
  users : List (Nat × UserInfo)
  username : String
  published : List Message
deriving DecidableEq

/-- State at the start of handle_socket: empty roster, empty cached
username, nothing published. -/
def initState : SessionState := { users := [], username := "", published := [] }

/-- Embeds one iteration of the receive loop of handle_socket,
src/server.rs lines 92-152, for the connection with server-assigned id
userId when the wall clock reads now.  Join overwrites the cached username
and the roster entry and publishes Join then UserList; Chat and VideoFrame
publish a re-tagged event only when the cached username is non-empty; all
other inbound variants are ignored. -/
def handleMsg (userId : Nat) (now : Nat) (st : SessionState) (m : Message) : SessionState :=
  match m with
  | Message.Join _ name =>
    let info : UserInfo := { id := userId, username := name, joined_at := now }
    let users := insertUser st.users userId info
    { users := users, username := name,
      published := st.published ++ [Message.Join userId name, Message.UserList (userValues users)] }
  | Message.Chat _ _ text _ =>
    if st.username ≠ "" then
      { st with published := st.published ++ [Message.Chat userId st.username text now] }
    else st
  | Message.VideoFrame _ _ frame =>
    if st.username ≠ "" then
      { st with published := st.published ++ [Message.VideoFrame userId st.username frame] }
    else st
  | _ => st

/-- Runs the receive loop over a list of (receipt time, inbound message)
pairs. -/
def process (userId : Nat) (st : SessionState) (msgs : List (Nat × Message)) : SessionState :=
  msgs.foldl (fun s p => handleMsg userId p.1 s p.2) st

/-- Tests whether an inbound message is a Join. -/
def isJoin : Message → Bool
  | Message.Join _ _ => true
  | _ => false

deriving instance DecidableEq for Except

lemma palette_length : PALETTE.length = 69 := rfl

lemma palette_lt_256 : ∀ g ∈ PALETTE, g < 256 := by decide

lemma length_flatMap_cellBytes (l : List (Nat × Nat × Nat × Nat)) :
    (l.flatMap cellBytes).length = 4 * l.length := by
  induction l with
  | nil => rfl
  | cons c t ih =>
    simp only [List.flatMap_cons, List.length_append, List.length_cons, ih, cellBytes]
    simp
    omega

lemma parseCells_flatMap (l : List (Nat × Nat × Nat × Nat)) (h : ∀ c ∈ l, c.1 < 256) :
    parseCells (l.flatMap cellBytes) = l := by
  induction l with
  | nil => rfl
  | cons c t ih =>
    have hc : c.1 < 256 := h c (List.mem_cons_self c t)
    have ht : ∀ x ∈ t, x.1 < 256 := fun x hx => h x (List.mem_cons_of_mem c hx)
    obtain ⟨g, r, b1, b2⟩ := c
    simp only at hc
    rw [List.flatMap_cons]
    simp only [cellBytes, List.cons_append, List.nil_append, parseCells]
    simp [ih ht, Nat.mod_eq_of_lt hc]

lemma u16_le_roundtrip (w : Nat) (h : w < 65536) :
    u16_from_le (w % 256) (w / 256 % 256) = w := by
  unfold u16_from_le
  omega

lemma serialize_eq (f : AsciiFrame) :
    serialize f = f.width % 256 :: f.width / 256 % 256 :: f.height % 256 ::
      f.height / 256 % 256 :: f.cells.flatMap cellBytes := by
  simp [serialize, u16_to_le]

lemma parseCells_length : ∀ l : List Nat, (parseCells l).length = l.length / 4
  | [] => by simp [parseCells]
  | [_] => by simp [parseCells]
  | [_, _] => by simp [parseCells]
  | [_, _, _] => by simp [parseCells]
  | _ :: _ :: _ :: _ :: rest => by
    simp only [parseCells, List.length_cons, parseCells_length rest]
    omega

lemma gridCells_length (data : List Nat) (w : Nat) (mono : Bool) (h : Nat) :
    (gridCells data w mono h).length = h * w := by
  induction h with
  | zero => simp [gridCells]
  | succ n ih =>
    unfold gridCells at ih ⊢
    rw [List.range_succ, List.flatMap_append]
    simp only [List.length_append, ih, List.flatMap_cons, List.flatMap_nil, List.append_nil,
      List.length_map, List.length_range]
    ring

lemma gridCells_getElem (data : List Nat) (w : Nat) (mono : Bool) (h k : Nat) (hk : k < h * w) :
    (gridCells data w mono h)[k]? = some (cellFor data w mono (k / w) (k % w)) := by
  induction h with
  | zero => omega
  | succ n ih =>
    have hlen : ((List.range n).flatMap
        (fun y => (List.range w).map (fun x => cellFor data w mono y x))).length = n * w :=
      gridCells_length data w mono n
    simp only [gridCells] at ih ⊢
    rw [List.range_succ, List.flatMap_append, List.getElem?_append, hlen]
    by_cases hlt : k < n * w
    · rw [if_pos hlt]
      exact ih hlt
    · have h1 : n * w ≤ k := le_of_not_lt hlt
      have hx : (n + 1) * w = n * w + w := by ring
      have h2 : k < n * w + w := by omega
      have hr : k - n * w < w := by omega
      have hw : 0 < w := by omega
      rw [if_neg hlt]
      simp only [List.flatMap_cons, List.flatMap_nil, List.append_nil]
      rw [List.getElem?_map, List.getElem?_range hr]
      have hdiv : k / w = n := by
        have hdm := Nat.div_add_mod k w
        have hmlt : k % w < w := Nat.mod_lt k hw
        have hcm : w * (k / w) = (k / w) * w := Nat.mul_comm w (k / w)
        by_contra hne
        rcases Nat.lt_or_ge (k / w) n with hl | hg
        · have : (k / w) * w + w ≤ n * w := by
            have := Nat.succ_le_of_lt hl
            calc (k / w) * w + w = (k / w + 1) * w := by ring
            _ ≤ n * w := Nat.mul_le_mul_right w this
          omega
        · have hgt : n < k / w := lt_of_le_of_ne hg (fun he => hne he.symm)
          have : (n + 1) * w ≤ (k / w) * w := Nat.mul_le_mul_right w (Nat.succ_le_of_lt hgt)
          omega
      have hmod : k % w = k - n * w := by
        have hdm := Nat.div_add_mod k w
        have hcm : w * (k / w) = (k / w) * w := Nat.mul_comm w (k / w)
        rw [hdiv] at hdm
        have hcm2 : w * n = n * w := Nat.mul_comm w n
        omega
      rw [hdiv, hmod]
      rfl

lemma deserialize_ok (data : List Nat) (fr : AsciiFrame) (h : deserialize data = Except.ok fr) :
    fr.width = u16_from_le (data.getD 0 0) (data.getD 1 0) ∧
    fr.height = u16_from_le (data.getD 2 0) (data.getD 3 0) ∧
    data.length = 4 + fr.width * fr.height * 4 % 65536 ∧
    fr.cells.length = fr.width * fr.height * 4 % 65536 / 4 := by
  simp only [deserialize] at h
  split at h
  · exact absurd h (by simp)
  · split at h
    · exact absurd h (by simp)
    · rename_i hlen hne
      injection h with h
      subst h
      refine ⟨rfl, rfl, ?_, ?_⟩ <;> dsimp only
      · omega
      · simp only [List.length_drop, parseCells_length]
        omega

lemma lookupUser_insertUser (l : List (Nat × UserInfo)) (k : Nat) (v : UserInfo) :
    lookupUser (insertUser l k v) k = some v := by
  induction l with
  | nil => simp [insertUser, lookupUser]
  | cons p t ih =>
    obtain ⟨k2, v2⟩ := p
    by_cases hk : k2 = k
    · simp [insertUser, lookupUser, hk]
    · simp [insertUser, lookupUser, hk, ih]

lemma handleMsg_not_join (sid t : Nat) (st : SessionState) (m : Message)
    (hm : isJoin m = false) (hu : st.username = "") : handleMsg sid t st m = st := by
  cases m with
  | Join id name => simp [isJoin] at hm
  | Chat id name text ts => simp [handleMsg, hu]
  | VideoFrame id name frame => simp [handleMsg, hu]
  | Leave id => rfl
  | UserList users => rfl
  | ServerInfo u r => rfl
  | Error msg => rfl

lemma process_no_join (sid : Nat) (msgs : List (Nat × Message))
    (h : ∀ p ∈ msgs, isJoin p.2 = false) : process sid initState msgs = initState := by
  induction msgs with
  | nil => rfl
  | cons p t ih =>
    have h1 : isJoin p.2 = false := h p (List.mem_cons_self p t)
    have ht : ∀ q ∈ t, isJoin q.2 = false := fun q hq => h q (List.mem_cons_of_mem p hq)
    unfold process at ih ⊢
    rw [List.foldl_cons, handleMsg_not_join sid p.1 initState p.2 h1 rfl]
    exact ih ht

lemma process_append (sid : Nat) (st : SessionState) (l1 l2 : List (Nat × Message)) :
    process sid st (l1 ++ l2) = process sid (process sid st l1) l2 := by
  simp [process]

/-- A well-formed 128 x 128 frame of blank cells; its serialized cell area is
65536 bytes, which the u16 length computation of deserialize wraps to 0. -/
def bigFrame : AsciiFrame :=
  { width := 128, height := 128, cells := List.replicate 16384 (32, 0, 0, 0) }

/-- C1 counterexample: the frame bigFrame is well formed (cell count equals
width times height and every glyph is the ramp glyph 32), yet
deserialize (serialize bigFrame) does not return bigFrame: the source
computes the expected length 4 + width * height * 4 in u16 arithmetic, which
wraps to 4 for a 128 x 128 frame, so the 65540-byte serialization is
rejected. -/
theorem C1_cex : WellFormed bigFrame ∧ deserialize (serialize bigFrame) ≠ Except.ok bigFrame := by
  have hclen : bigFrame.cells.length = 16384 := List.length_replicate 16384 _
  constructor
  · refine ⟨by decide, by decide, ?_, ?_⟩
    · rw [hclen]
      rfl
    · intro c hc
      have he : c = (32, 0, 0, 0) := List.eq_of_mem_replicate hc
      subst he
      exact ⟨by decide, by decide, by decide, by decide⟩
  · intro hcontra
    have h4 := (deserialize_ok _ _ hcontra).2.2.1
    have hlen : (serialize bigFrame).length = 65540 := by
      rw [serialize_eq, List.length_cons, List.length_cons, List.length_cons, List.length_cons,
        length_flatMap_cellBytes, hclen]
    rw [hlen] at h4
    exact absurd h4 (by decide)

/-- C1 (amended): for every well-formed AsciiFrame f whose serialized cell
area stays below the u16 wrap, that is width * height * 4 < 65536,
deserialize (serialize f) succeeds and returns exactly f: same width, same
height, same cell sequence. -/
theorem C1_roundtrip (f : AsciiFrame) (hwf : WellFormed f)
    (hsz : f.width * f.height * 4 < 65536) :
    deserialize (serialize f) = Except.ok f := by
  obtain ⟨hw, hh, hlen, hcells⟩ := hwf
  have hflat : (f.cells.flatMap cellBytes).length = 4 * f.cells.length :=
    length_flatMap_cellBytes _
  rw [serialize_eq]
  simp only [deserialize, List.getD_cons_zero, List.getD_cons_succ, List.length_cons]
  rw [hflat, hlen]
  rw [if_neg (by omega)]
  rw [u16_le_roundtrip f.width hw, u16_le_roundtrip f.height hh]
  rw [if_neg (by rw [Nat.mod_eq_of_lt hsz]; omega)]
  have hdrop : (f.width % 256 :: f.width / 256 % 256 :: f.height % 256 ::
      f.height / 256 % 256 :: f.cells.flatMap cellBytes).drop 4 = f.cells.flatMap cellBytes := rfl
  rw [hdrop, parseCells_flatMap f.cells (fun c hc => palette_lt_256 c.1 (hcells c hc).1)]

/-- C1 witness: the round-trip theorem applied to the concrete well-formed
1 x 1 frame holding one blank ramp cell. -/
theorem C1_roundtrip_witness :
    deserialize (serialize { width := 1, height := 1, cells := [(32, 0, 0, 0)] }) =
      Except.ok { width := 1, height := 1, cells := [(32, 0, 0, 0)] } :=
  C1_roundtrip { width := 1, height := 1, cells := [(32, 0, 0, 0)] }
    ⟨by decide, by decide, by decide, by decide⟩ (by decide)

/-- C2 counterexample: the 4-byte buffer with header width = 128,
height = 128 has length 4, different from 4 + width * height * 4 = 65540,
so the claim says deserialize must reject it; the code accepts it with zero
cells because the expected length wraps in u16 arithmetic. -/
theorem C2_cex :
    deserialize [128, 0, 128, 0] = Except.ok { width := 128, height := 128, cells := [] } ∧
    ([128, 0, 128, 0] : List Nat).length ≠ 4 + 128 * 128 * 4 :=
  ⟨by decide, by decide⟩

/-- C2 (amended): deserialize succeeds exactly when the buffer has at least
4 bytes and its total length equals 4 + (width * height * 4 mod 65536),
the expected length being computed in wrapping u16 arithmetic, where width
and height are the two little-endian u16 header fields; in particular for
zero width or zero height an exactly 4-byte buffer is accepted with zero
cells. -/
theorem C2_length_check (data : List Nat) :
    ((deserialize data).isOk = true ↔
      4 ≤ data.length ∧
        data.length = 4 + u16_from_le (data.getD 0 0) (data.getD 1 0) *
          u16_from_le (data.getD 2 0) (data.getD 3 0) * 4 % 65536) ∧
    (data.length = 4 →
      u16_from_le (data.getD 0 0) (data.getD 1 0) *
        u16_from_le (data.getD 2 0) (data.getD 3 0) = 0 →
      deserialize data = Except.ok (AsciiFrame.mk (u16_from_le (data.getD 0 0) (data.getD 1 0))
        (u16_from_le (data.getD 2 0) (data.getD 3 0)) [])) := by
  constructor
  · constructor
    · intro hok
      cases hde : deserialize data with
      | error e => rw [hde] at hok; exact Bool.noConfusion hok
      | ok fr =>
        obtain ⟨hw, hh, hl, _⟩ := deserialize_ok data fr hde
        rw [hw, hh] at hl
        exact ⟨by omega, hl⟩
    · rintro ⟨h4, hl⟩
      simp only [deserialize]
      rw [if_neg (by omega), if_neg (not_ne_iff.mpr hl)]
      rfl
  · intro h4 hwh
    have hz : u16_from_le (data.getD 0 0) (data.getD 1 0) *
        u16_from_le (data.getD 2 0) (data.getD 3 0) * 4 % 65536 = 0 := by
      rw [hwh]
    have hdrop : data.drop 4 = [] := by
      apply List.drop_eq_nil_of_le
      omega
    simp only [deserialize]
    rw [if_neg (by omega), if_neg (by rw [hz]; omega), hdrop]
    rfl

/-- C2 witness: the characterization applied to the all-zero 4-byte header,
an empty frame accepted with zero cells. -/
theorem C2_length_check_witness :
    deserialize [0, 0, 0, 0] = Except.ok { width := 0, height := 0, cells := [] } :=
  (C2_length_check [0, 0, 0, 0]).2 (by decide) (by decide)

/-- C3 counterexample: deserialize accepts the 4-byte buffer with header
128 x 128 (the u16 expected length wraps to 4) and returns a frame with zero
cells, violating cells.length = width * height. -/
theorem C3_cex :
    deserialize [128, 0, 128, 0] = Except.ok { width := 128, height := 128, cells := [] } ∧
    ¬ ((128 : Nat) * 128 = ([] : List (Nat × Nat × Nat × Nat)).length) :=
  ⟨by decide, by decide⟩

/-- C3 (amended): every frame built by from_rgb_data satisfies
cells.length = width * height for any buffer, dimensions and mono flag; a
frame returned by a successful deserialize satisfies it provided
width * height * 4 < 65536, the bound under which the u16 length check of
the source does not wrap. -/
theorem C3_cells_invariant (data : List Nat) (w h : Nat) (mono : Bool) (fr1 : AsciiFrame)
    (data2 : List Nat) (fr2 : AsciiFrame)
    (h1 : from_rgb_data data w h mono = Except.ok fr1)
    (h2 : deserialize data2 = Except.ok fr2)
    (h3 : fr2.width * fr2.height * 4 < 65536) :
    fr1.cells.length = fr1.width * fr1.height ∧ fr2.cells.length = fr2.width * fr2.height := by
  constructor
  · have hf : fr1 = frameOfRgb data w h mono := by
      injection h1 with h1
      exact h1.symm
    subst hf
    simp [frameOfRgb, gridCells_length, Nat.mul_comm]
  · have h4 := (deserialize_ok data2 fr2 h2).2.2.2
    rw [h4, Nat.mod_eq_of_lt h3]
    omega

/-- C3 witness: the invariant evaluated on a 1 x 1 encode of an empty buffer
and a 1 x 1 successfully deserialized frame. -/
theorem C3_cells_invariant_witness :
    ([(32, 0, 0, 0)] : List (Nat × Nat × Nat × Nat)).length = 1 * 1 ∧
    ([(32, 1, 2, 3)] : List (Nat × Nat × Nat × Nat)).length = 1 * 1 :=
  C3_cells_invariant [] 1 1 false { width := 1, height := 1, cells := [(32, 0, 0, 0)] }
    [1, 0, 1, 0, 32, 1, 2, 3] { width := 1, height := 1, cells := [(32, 1, 2, 3)] }
    (by decide) (by decide) (by decide)

/-- C8: the luminance-to-glyph mapping of ascii_for_rgb is monotonic
non-decreasing: for luminance values L1 < L2 up to 255, the ramp index
(L * (N - 1)) / 255 is non-decreasing, luminance 0 selects the first ramp
glyph (the space, byte 32) and luminance 255 the last one (the dollar sign,
byte 36, index N - 1), where N = 69 is the ramp length. -/
theorem C8_ramp_monotone (L1 L2 : Nat) (h12 : L1 < L2) (_h255 : L2 ≤ 255) :
    ramp_index L1 ≤ ramp_index L2 ∧ ramp_index 0 = 0 ∧
    ramp_index 255 = PALETTE.length - 1 ∧
    PALETTE.getD (ramp_index 0) 0 = 32 ∧ PALETTE.getD (ramp_index 255) 0 = 36 := by
  refine ⟨?_, by decide, by decide, by decide, by decide⟩
  unfold ramp_index
  rw [palette_length]
  omega

/-- C8 witness: the monotonicity theorem applied at the luminance pair
3 < 7. -/
theorem C8_ramp_monotone_witness :
    ramp_index 3 ≤ ramp_index 7 ∧ ramp_index 0 = 0 ∧
    ramp_index 255 = PALETTE.length - 1 ∧
    PALETTE.getD (ramp_index 0) 0 = 32 ∧ PALETTE.getD (ramp_index 255) 0 = 36 :=
  C8_ramp_monotone 3 7 (by decide) (by decide)

/-- C9 counterexample: a 5-byte buffer encoded as a 21847 x 1 frame is far
shorter than width * height * 3, and the three source bytes of the cell at
linear index 21846 lie beyond the buffer, yet that cell is not blank: the
source computes the flat byte index (y * width + x) * 3 in u16 arithmetic,
so 21846 * 3 = 65538 wraps to 2 and the cell is built from bytes 2, 3, 4 of
the buffer, giving color (3, 4, 5) instead of black. -/
theorem C9_cex :
    ([1, 2, 3, 4, 5] : List Nat).length < 21847 * 1 * 3 ∧
    ([1, 2, 3, 4, 5] : List Nat).length ≤ 3 * 21846 + 2 ∧
    21846 < 1 * 21847 ∧
    from_rgb_data [1, 2, 3, 4, 5] 21847 1 false =
      Except.ok (frameOfRgb [1, 2, 3, 4, 5] 21847 1 false) ∧
    (frameOfRgb [1, 2, 3, 4, 5] 21847 1 false).cells[21846]? ≠ some (32, 0, 0, 0) := by
  refine ⟨by decide, by decide, by decide, rfl, ?_⟩
  rw [show (frameOfRgb [1, 2, 3, 4, 5] 21847 1 false).cells =
    gridCells [1, 2, 3, 4, 5] 21847 false 1 from rfl]
  rw [gridCells_getElem [1, 2, 3, 4, 5] 21847 false 1 21846 (by decide)]
  decide

/-- C9 (amended): for dimensions with width * height * 3 < 65536 (so the
u16 flat-index arithmetic of the source does not wrap), encoding any pixel
buffer shorter than width * height * 3 succeeds with no error, and every
cell whose three source bytes are not fully present in the buffer is filled
with the blank glyph (space) and black color. -/
theorem C9_blank_fill (data : List Nat) (w h : Nat) (mono : Bool) (k : Nat)
    (hover : w * h * 3 < 65536) (hshort : data.length < w * h * 3)
    (hk : k < h * w) (hmiss : data.length ≤ 3 * k + 2) :
    from_rgb_data data w h mono = Except.ok (frameOfRgb data w h mono) ∧
    (frameOfRgb data w h mono).cells[k]? = some (32, 0, 0, 0) := by
  refine ⟨rfl, ?_⟩
  rw [show (frameOfRgb data w h mono).cells = gridCells data w mono h from rfl]
  rw [gridCells_getElem data w mono h k hk]
  have hkw : k / w * w + k % w = k := by
    have hdm := Nat.div_add_mod k w
    have hcm : w * (k / w) = k / w * w := Nat.mul_comm _ _
    omega
  have h3k : k * 3 < 65536 := by
    have hcm : h * w = w * h := Nat.mul_comm h w
    omega
  have hcell : cellFor data w mono (k / w) (k % w) = (32, 0, 0, 0) := by
    simp only [cellFor]
    rw [hkw, Nat.mod_eq_of_lt h3k, if_pos (by omega)]
  rw [hcell]

/-- C9 witness: the blank-fill theorem applied to the empty buffer encoded
as a 1 x 1 frame, whose only cell is blank. -/
theorem C9_blank_fill_witness :
    from_rgb_data [] 1 1 false = Except.ok (frameOfRgb [] 1 1 false) ∧
    (frameOfRgb [] 1 1 false).cells[0]? = some (32, 0, 0, 0) :=
  C9_blank_fill [] 1 1 false 0 (by decide) (by decide) (by decide) (by decide)

/-- C4 counterexample: after Join with name alice followed by Join with name
bob on the same connection, the roster entry carries bob, not alice: the
source overwrites both the cached username and the HashMap entry on every
Join, so the claim that the first Join wins is false. -/
theorem C4_cex :
    (lookupUser (process 7 initState
        [(10, Message.Join 1 "alice"), (11, Message.Join 2 "bob")]).users 7).map
      UserInfo.username = some "bob" ∧ ("bob" : String) ≠ "alice" := by
  exact ⟨rfl, by decide⟩

/-- C4 (amended): after the hub has processed Join with name n1 followed by
Join with name n2 on the same connection, the roster entry for that
connection carries the display name n2: the last Join wins, a duplicate
Join overwrites the stored name. -/
theorem C4_last_join_wins (sid t1 t2 cid1 cid2 : Nat) (n1 n2 : String) (st : SessionState) :
    (lookupUser (process sid st
        [(t1, Message.Join cid1 n1), (t2, Message.Join cid2 n2)]).users sid).map
      UserInfo.username = some n2 := by
  show (lookupUser (handleMsg sid t2 (handleMsg sid t1 st (Message.Join cid1 n1))
    (Message.Join cid2 n2)).users sid).map UserInfo.username = some n2
  simp only [handleMsg]
  rw [lookupUser_insertUser]
  rfl

/-- C5: a Chat or VideoFrame received before the session has sent any Join
publishes no event and leaves the state unchanged: after any prefix of
non-Join messages from the initial state the cached username is still empty,
so the publish guard drops the message. -/
theorem C5_silent_before_join (sid t cid : Nat) (cu text : String) (cts : Nat)
    (frame : List Nat) (msgs : List (Nat × Message))
    (h : ∀ p ∈ msgs, isJoin p.2 = false) :
    process sid initState (msgs ++ [(t, Message.Chat cid cu text cts)]) = initState ∧
    process sid initState (msgs ++ [(t, Message.VideoFrame cid cu frame)]) = initState := by
  have hpre := process_no_join sid msgs h
  constructor
  · rw [process_append, hpre]
    exact handleMsg_not_join sid t initState (Message.Chat cid cu text cts) rfl rfl
  · rw [process_append, hpre]
    exact handleMsg_not_join sid t initState (Message.VideoFrame cid cu frame) rfl rfl

/-- C5 witness: a Leave followed by a Chat, and by a VideoFrame, from a
fresh connection leaves the hub state and the published list untouched. -/
theorem C5_silent_before_join_witness :
    process 7 initState ([(0, Message.Leave 3)] ++ [(1, Message.Chat 2 "mallory" "hi" 5)]) =
      initState ∧
    process 7 initState ([(0, Message.Leave 3)] ++ [(1, Message.VideoFrame 2 "mallory" [9])]) =
      initState :=
  C5_silent_before_join 7 1 2 "mallory" "hi" 5 [9] [(0, Message.Leave 3)] (by decide)

/-- C6: events published for an Active session carry the server-assigned
connection id and the cached display name captured at Join time; the id and
username fields supplied by the client inside a Chat or VideoFrame have no
influence: two inbound messages differing only in those fields produce
identical results. -/
theorem C6_server_identity (sid now : Nat) (st : SessionState)
    (cid1 cid2 cid3 cid4 : Nat) (cu1 cu2 cu3 cu4 : String)
    (text : String) (cts : Nat) (frame : List Nat)
    (hu : st.username ≠ "") :
    handleMsg sid now st (Message.Chat cid1 cu1 text cts) =
      { st with published := st.published ++ [Message.Chat sid st.username text now] } ∧
    handleMsg sid now st (Message.Chat cid2 cu2 text cts) =
      handleMsg sid now st (Message.Chat cid1 cu1 text cts) ∧
    handleMsg sid now st (Message.VideoFrame cid3 cu3 frame) =
      { st with published := st.published ++ [Message.VideoFrame sid st.username frame] } ∧
    handleMsg sid now st (Message.VideoFrame cid4 cu4 frame) =
      handleMsg sid now st (Message.VideoFrame cid3 cu3 frame) := by
  refine ⟨?_, rfl, ?_, rfl⟩
  · simp only [handleMsg]
    rw [if_pos hu]
  · simp only [handleMsg]
    rw [if_pos hu]

/-- C6 witness: the identity re-tagging theorem applied to a session whose
cached name is alice and four inbound messages with forged id and username
fields. -/
theorem C6_server_identity_witness :
    handleMsg 7 9 (SessionState.mk [] "alice" []) (Message.Chat 1 "x" "hi" 0) =
      SessionState.mk [] "alice" [Message.Chat 7 "alice" "hi" 9] ∧
    handleMsg 7 9 (SessionState.mk [] "alice" []) (Message.Chat 2 "y" "hi" 0) =
      handleMsg 7 9 (SessionState.mk [] "alice" []) (Message.Chat 1 "x" "hi" 0) ∧
    handleMsg 7 9 (SessionState.mk [] "alice" []) (Message.VideoFrame 3 "z" [5]) =
      SessionState.mk [] "alice" [Message.VideoFrame 7 "alice" [5]] ∧
    handleMsg 7 9 (SessionState.mk [] "alice" []) (Message.VideoFrame 4 "w" [5]) =
      handleMsg 7 9 (SessionState.mk [] "alice" []) (Message.VideoFrame 3 "z" [5]) :=
  C6_server_identity 7 9 (SessionState.mk [] "alice" []) 1 2 3 4 "x" "y" "z" "w" "hi" 0 [5]
    (by decide)

/-- C10: a first Join carrying an empty username still inserts a roster
entry for the connection (and the UserList snapshot published right after
it contains that empty-named entry), yet every later Chat and VideoFrame
from the session publishes nothing and leaves the state unchanged, because
the publish guard tests that the cached username is non-empty rather than
roster membership. -/
theorem C10_empty_name_join (sid t t2 cid cid2 cid3 : Nat) (cu2 cu3 text : String)
    (cts : Nat) (frame : List Nat) :
    lookupUser (handleMsg sid t initState (Message.Join cid "")).users sid =
      some (UserInfo.mk sid "" t) ∧
    (handleMsg sid t initState (Message.Join cid "")).published =
      [Message.Join sid "", Message.UserList [UserInfo.mk sid "" t]] ∧
    handleMsg sid t2 (handleMsg sid t initState (Message.Join cid ""))
      (Message.Chat cid2 cu2 text cts) = handleMsg sid t initState (Message.Join cid "") ∧
    handleMsg sid t2 (handleMsg sid t initState (Message.Join cid ""))
      (Message.VideoFrame cid3 cu3 frame) = handleMsg sid t initState (Message.Join cid "") := by
  have hstate : handleMsg sid t initState (Message.Join cid "") =
      SessionState.mk [(sid, UserInfo.mk sid "" t)] ""
        [Message.Join sid "", Message.UserList [UserInfo.mk sid "" t]] := rfl
  rw [hstate]
  refine ⟨?_, rfl, ?_, ?_⟩
  · simp [lookupUser]
  · simp [handleMsg]
  · simp [handleMsg]

end AsciiChat
